import Mathlib

/-!
Verification of the MQTT event-ingestion pipeline of
`backend/app/mqtt_client.py` (`MQTTEventProcessor`): the dead-letter
router `_send_to_dlq`, the message handler `_process_message`, the
supervised reconnect loop `start`, and the outbound `publish_event`.

The Python code is shallowly embedded: each method becomes a pure Lean
function over an explicit description of its inputs and of the outcomes
of its effectful sub-steps (broker publish, table insert), and the
function returns a record of what the method did (what it raised, what
it logged, which rows it wrote).
-/

set_option autoImplicit false

namespace TaylorDash

/-- The `payload` argument of `_send_to_dlq`, classified the way the
Python code classifies it (`isinstance(payload, dict)`,
`isinstance(payload, bytes)`, else `str(payload)`).  A `dict` is
represented by its key list, `bytes` by whether they decode as UTF-8
(and to which string when they do). -/
inductive PayloadVal where
  | dict (keys : List String)
  | bytesUtf8 (s : String)
  | bytesBad
  | other (s : String)
deriving DecidableEq

/-- Environment of one `_send_to_dlq` call: whether `self.client` is
set, and whether the broker publish / the `dlq_events` insert raise
(`some e` = raises with message `e`, `none` = succeeds). -/
structure DlqEnv where
  clientConnected : Bool
  publishRaises : Option String
  insertRaises : Option String
deriving DecidableEq

/-- Observable behaviour of one `_send_to_dlq` call. -/
structure DlqResult where
  /-- exception escaping `_send_to_dlq` to its caller, if any -/
  raised : Option String
  /-- the broker republish to the DLQ topic completed -/
  published : Bool
  /-- the `INSERT INTO dlq_events` statement was attempted -/
  insertAttempted : Bool
  /-- the `INSERT INTO dlq_events` statement completed -/
  inserted : Bool
  /-- `(original_topic, failure_reason)` of the row written, when one was -/
  row : Option (String × String)
  /-- message logged by the `except` handler, if it ran -/
  errorLogged : Option String
deriving DecidableEq

/-- Message of the `UnicodeDecodeError` raised by `bytes.decode()` on
non-UTF-8 input (the exact Python text is irrelevant; only its identity
matters). -/
def unicodeDecodeErrorMsg : String := "UnicodeDecodeError"

/-- `dlq_topic = f"tracker/dlq/{original_topic.replace('/', '_')}"`. -/
def dlqTopic (originalTopic : String) : String :=
  "tracker/dlq/" ++ originalTopic.replace "/" "_"

/-- `MQTTEventProcessor._send_to_dlq(original_topic, payload, reason)`.

The Python body first builds `dlq_payload`, whose `payload` entry is
`payload if isinstance(payload, dict) else payload.decode() if
isinstance(payload, bytes) else str(payload)`; on non-UTF-8 bytes this
`decode()` raises *before* the `try` block.  The `try` block then
publishes to the derived DLQ topic when `self.client` is set, then
inserts into `dlq_events`; a single `except Exception` handler logs
`"Failed to send to DLQ: ..."`. -/
def send_to_dlq (originalTopic reason : String) (payload : PayloadVal)
    (env : DlqEnv) : DlqResult :=
  match payload with
  | .bytesBad =>
      -- dlq_payload construction raises UnicodeDecodeError outside the try
      ⟨some unicodeDecodeErrorMsg, false, false, false, none, none⟩
  | _ =>
      match (if env.clientConnected then env.publishRaises else none) with
      | some e =>
          -- publish raised: control jumps to the except handler,
          -- the insert is never reached
          ⟨none, false, false, false, none, some ("Failed to send to DLQ: " ++ e)⟩
      | none =>
          match env.insertRaises with
          | some e =>
              ⟨none, env.clientConnected, true, false, none,
               some ("Failed to send to DLQ: " ++ e)⟩
          | none =>
              ⟨none, env.clientConnected, true, true,
               some (originalTopic, reason), none⟩

/-- The four mandatory envelope fields, in source order
(`required_fields` in `_process_message`). -/
def requiredFields : List String := ["trace_id", "ts", "kind", "idempotency_key"]

/-- Python single-quote character, as used by `repr` of a string. -/
def pyQuote : String := String.singleton (Char.ofNat 39)

/-- Python `repr` of a string literal without special characters. -/
def pyRepr (s : String) : String := pyQuote ++ s ++ pyQuote

/-- Python `repr` of a list of such strings, as interpolated by
`f"Missing fields: {missing_fields}"`. -/
def pyListRepr (l : List String) : String :=
  "[" ++ String.intercalate ", " (l.map pyRepr) ++ "]"

/-- An inbound MQTT message payload, classified by what
`json.loads(message.payload.decode())` does to it:
raw bytes that are not UTF-8 (`decode()` raises `UnicodeDecodeError`);
UTF-8 text `s` on which `json.loads` raises `json.JSONDecodeError`
with message `err`; or UTF-8 text `s` parsing to a JSON object whose
key list is `keys` (the claims under study only concern objects). -/
inductive InMsg where
  | badUtf8
  | badJson (s : String) (err : String)
  | jsonObj (s : String) (keys : List String)
deriving DecidableEq

/-- Observable outcome of `_process_message` for one message. -/
inductive ProcOutcome where
  /-- the envelope was inserted into `events_mirror` under `topic` -/
  | mirrored (topic : String) (keys : List String)
  /-- `_send_to_dlq` was called with `reason` and returned; `r` is what it did -/
  | dlq (reason : String) (r : DlqResult)
  /-- an exception escaped `_process_message` (killing the consume loop) -/
  | escaped (msg : String)
deriving DecidableEq

/-- A call of `_send_to_dlq` from inside `_process_message`, together
with the propagation of anything that call raises (nothing in
`_process_message` catches it, so it escapes the handler). -/
def dlqOutcome (topic reason : String) (p : PayloadVal) (env : DlqEnv) :
    ProcOutcome :=
  match (send_to_dlq topic reason p env).raised with
  | some m => .escaped m
  | none => .dlq reason (send_to_dlq topic reason p env)

/-- `MQTTEventProcessor._process_message(message)` on a message with
the given topic and payload.  `env` gives the behaviour of the DLQ
path's broker/store, `mirrorRaises` whether the `events_mirror` insert
raises.

Control flow of the Python body: an inner `try` around
`json.loads(message.payload.decode())` catches only
`json.JSONDecodeError` (reason `"JSON decode error: ..."`, raw bytes to
the DLQ); missing mandatory fields go to the DLQ with
`"Missing fields: [...]"` and the parsed dict as payload; any other
exception — including the `UnicodeDecodeError` of `decode()` on
non-UTF-8 bytes and a mirror-insert failure — reaches the outer
`except Exception`, which calls `_send_to_dlq` with the raw bytes and
reason `"Processing error: ..."`. -/
def process_message (topic : String) (msg : InMsg) (env : DlqEnv)
    (mirrorRaises : Option String) : ProcOutcome :=
  match msg with
  | .badUtf8 =>
      -- decode() raises UnicodeDecodeError; not a json.JSONDecodeError,
      -- so it reaches the outer handler, which dead-letters the raw bytes
      dlqOutcome topic ("Processing error: " ++ unicodeDecodeErrorMsg)
        PayloadVal.bytesBad env
  | .badJson s err =>
      dlqOutcome topic ("JSON decode error: " ++ err) (PayloadVal.bytesUtf8 s) env
  | .jsonObj s keys =>
      let missing := requiredFields.filter (fun f => ! keys.contains f)
      if missing.isEmpty then
        match mirrorRaises with
        | none => .mirrored topic keys
        | some e =>
            dlqOutcome topic ("Processing error: " ++ e)
              (PayloadVal.bytesUtf8 s) env
      else
        dlqOutcome topic ("Missing fields: " ++ pyListRepr missing)
          (PayloadVal.dict keys) env

/-- How one invocation of `_connect_and_process()` ends: it either
returns normally (`ret`, the message iterator finished without error)
or raises (`exn connected`, where `connected` records whether the
connect-and-subscribe phase had succeeded before the exception — the
Python caller cannot observe this flag, only the exception). -/
inductive SessionOutcome where
  | ret
  | exn (connected : Bool)
deriving DecidableEq

/-- `delay = min(self.base_delay * (2 ** (retry_count - 1)), self.max_delay)`. -/
def backoffDelay (baseDelay maxDelay : ℚ) (k : ℕ) : ℚ :=
  min (baseDelay * 2 ^ (k - 1)) maxDelay

/-- Observable trace of the supervised loop in `start()` over a finite
prefix of session outcomes. -/
structure LoopTrace where
  /-- number of `_connect_and_process()` invocations (connection attempts) -/
  attempts : ℕ
  /-- the sleeps performed between attempts, in order, in seconds -/
  delays : List ℚ
  /-- the loop broke after logging "MQTT max retries exceeded" -/
  fatal : Bool
deriving DecidableEq

/-- The `while self.running` loop of `MQTTEventProcessor.start()`,
run with consecutive-failure counter `rc` against a finite list of
session outcomes (the trace stops being observed when the list is
exhausted).  On a normal return, `retry_count = 0`; on an exception,
`retry_count += 1`, then either sleep `backoffDelay` and loop
(`retry_count <= max_retries`) or log fatally and `break`. -/
def runLoopAux (maxRetries : ℕ) (baseDelay maxDelay : ℚ) :
    List SessionOutcome → ℕ → LoopTrace
  | [], _ => ⟨0, [], false⟩
  | SessionOutcome.ret :: rest, _ =>
      let t := runLoopAux maxRetries baseDelay maxDelay rest 0
      ⟨t.attempts + 1, t.delays, t.fatal⟩
  | SessionOutcome.exn _ :: rest, rc =>
      if rc + 1 ≤ maxRetries then
        let t := runLoopAux maxRetries baseDelay maxDelay rest (rc + 1)
        ⟨t.attempts + 1, backoffDelay baseDelay maxDelay (rc + 1) :: t.delays,
         t.fatal⟩
      else
        ⟨1, [], true⟩

/-- `start()`: the supervised loop started with `retry_count = 0`. -/
def runLoop (maxRetries : ℕ) (baseDelay maxDelay : ℚ)
    (outcomes : List SessionOutcome) : LoopTrace :=
  runLoopAux maxRetries baseDelay maxDelay outcomes 0

/-- The event envelope built by `publish_event` (the `payload` entry is
kept abstract as its key list). -/
structure Envelope where
  trace_id : String
  ts : String
  kind : String
  idempotency_key : String
  payloadKeys : List String
deriving DecidableEq

/-- `f"{kind}_{int(time.time() * 1000)}_{uuid.uuid4().hex[:8]}"`,
evaluated once, before the retry loop. -/
def mkIdempotencyKey (kind : String) (timeMs : ℕ) (suffix : String) : String :=
  kind ++ "_" ++ toString timeMs ++ "_" ++ suffix

/-- How `publish_event` ends: returning the trace id, or raising
`MQTTError(msg, detail)`. -/
inductive PubResult where
  | ok (traceId : String)
  | raised (msg : String) (detail : String)
deriving DecidableEq

/-- Observable trace of one `publish_event` call. -/
structure PublishTrace where
  result : PubResult
  /-- `(event, reason)` of the `_send_to_dlq` call on exhaustion, if made -/
  dlqCall : Option (Envelope × String)
  /-- the envelope handed to `client.publish` on each attempt made, in order -/
  attempts : List Envelope
deriving DecidableEq

/-- The `for attempt in range(max_retries)` loop of `publish_event`,
iterating over the per-attempt outcomes (`none` = the broker publish of
this attempt succeeds, `some e` = it raises with message `e`; a raise
before the publish, such as `self.client` being `None`, is the same
`some e` case).  The envelope `ev` was built before the loop and is
re-serialized unchanged on every attempt.  On the last attempt's
failure the event is dead-lettered and `MQTTError` is raised; if the
loop finishes without returning (only possible when `max_retries = 0`)
the function falls through to its final `return trace_id`. -/
def publishLoop (ev : Envelope) (tid : String) (maxRetries : ℕ) :
    List (Option String) → PublishTrace
  | [] => ⟨.ok tid, none, []⟩
  | none :: _ => ⟨.ok tid, none, [ev]⟩
  | [some e] =>
      ⟨.raised ("Failed to publish event after " ++ toString maxRetries
          ++ " attempts") e,
       some (ev, "Publish failed after " ++ toString maxRetries
          ++ " attempts: " ++ e),
       [ev]⟩
  | some _ :: b :: rest =>
      let r := publishLoop ev tid maxRetries (b :: rest)
      ⟨r.result, r.dlqCall, ev :: r.attempts⟩

/-- `MQTTEventProcessor.publish_event(topic, kind, payload, trace_id,
max_retries)`.  Nondeterministic inputs are explicit parameters:
`freshUuid` is the `uuid.uuid4()` drawn when `trace_id` is not
supplied, `nowTs` the ISO timestamp, `timeMs` and `suffix` the
millisecond clock and random hex suffix read once, at call entry, when
the envelope is constructed.  `outcome a` is the fate of the broker
publish on attempt `a` (0-based). -/
def publish_event (kind : String) (payloadKeys : List String)
    (traceIdArg : Option String) (freshUuid nowTs : String)
    (timeMs : ℕ) (suffix : String) (maxRetries : ℕ)
    (outcome : ℕ → Option String) : PublishTrace :=
  let tid := traceIdArg.getD freshUuid
  let ev : Envelope :=
    ⟨tid, nowTs, kind, mkIdempotencyKey kind timeMs suffix, payloadKeys⟩
  publishLoop ev tid maxRetries ((List.range maxRetries).map outcome)

/-! ## Helper lemmas -/

/-- `_send_to_dlq` never raises when the payload is not a non-UTF-8
byte string: every failure inside the `try` block is swallowed. -/
theorem send_to_dlq_raised_none (t r : String) (p : PayloadVal) (env : DlqEnv)
    (hp : p ≠ PayloadVal.bytesBad) :
    (send_to_dlq t r p env).raised = none := by
  obtain ⟨c, pr, ir⟩ := env
  cases p <;> simp at hp <;> cases c <;> cases pr <;> cases ir <;>
    simp [send_to_dlq]

/-- When the payload handed to the DLQ router is not non-UTF-8 bytes,
the router returns instead of raising, so the handler reports a
dead-lettered message. -/
theorem dlqOutcome_eq_dlq (topic reason : String) (p : PayloadVal) (env : DlqEnv)
    (hp : p ≠ PayloadVal.bytesBad) :
    dlqOutcome topic reason p env =
      ProcOutcome.dlq reason (send_to_dlq topic reason p env) := by
  unfold dlqOutcome
  rw [send_to_dlq_raised_none topic reason p env hp]

/-- Prepending the delay of attempt `rc + 1` to the delays of the `m`
following attempts gives the delays of `m + 1` attempts from `rc + 1`. -/
theorem backoff_delays_cons (b md : ℚ) (m rc : ℕ) :
    backoffDelay b md (rc + 1) ::
        (List.range m).map (fun i => backoffDelay b md (rc + 1 + 1 + i)) =
      (List.range (m + 1)).map (fun i => backoffDelay b md (rc + 1 + i)) := by
  rw [List.range_succ_eq_map, List.map_cons, List.map_map]
  refine congrArg₂ _ (by norm_num) ?_
  refine congrArg₂ _ ?_ rfl
  funext i
  simp only [Function.comp]
  congr 1
  omega

/-- Closed form of the supervised loop on a run of `n` consecutive
failures that stays within the retry budget: all `n` attempts are
made, each failure `k` is followed by the backoff delay of attempt
`k`, and the loop neither breaks nor reports a fatal condition. -/
theorem runLoopAux_replicate_of_le (mr : ℕ) (b md : ℚ) :
    ∀ (n rc : ℕ), rc + n ≤ mr →
      runLoopAux mr b md (List.replicate n (SessionOutcome.exn false)) rc =
        ⟨n, (List.range n).map (fun i => backoffDelay b md (rc + 1 + i)), false⟩ := by
  intro n
  induction n with
  | zero => intro rc h; simp [runLoopAux]
  | succ n ih =>
      intro rc h
      have h1 : rc + 1 ≤ mr := by omega
      rw [List.replicate_succ]
      simp only [runLoopAux, if_pos h1]
      rw [ih (rc + 1) (by omega)]
      simp only [LoopTrace.mk.injEq]
      exact ⟨trivial, backoff_delays_cons b md n rc, trivial⟩

/-- Closed form of the supervised loop on a run of consecutive failures
that exceeds the retry budget: exactly `mr - rc + 1` further attempts
are made, `mr - rc` delays are slept, and the loop breaks fatally. -/
theorem runLoopAux_replicate_of_gt (mr : ℕ) (b md : ℚ) :
    ∀ (n rc : ℕ), rc ≤ mr → mr < rc + n →
      runLoopAux mr b md (List.replicate n (SessionOutcome.exn false)) rc =
        ⟨mr - rc + 1,
         (List.range (mr - rc)).map (fun i => backoffDelay b md (rc + 1 + i)),
         true⟩ := by
  intro n
  induction n with
  | zero => intro rc h1 h2; omega
  | succ n ih =>
      intro rc h1 h2
      rw [List.replicate_succ]
      by_cases hc : rc + 1 ≤ mr
      · simp only [runLoopAux, if_pos hc]
        rw [ih (rc + 1) hc (by omega)]
        have hm : mr - rc = (mr - (rc + 1)) + 1 := by omega
        simp only [LoopTrace.mk.injEq]
        refine ⟨by omega, ?_, trivial⟩
        rw [hm]
        exact backoff_delays_cons b md (mr - (rc + 1)) rc
      · have hrc : rc = mr := by omega
        simp only [runLoopAux, if_neg hc]
        subst hrc
        simp

/-- Unfolding of the publish loop on a failed non-final attempt. -/
theorem publishLoop_cons_cons (ev : Envelope) (tid : String) (mr : ℕ)
    (d : String) (b : Option String) (rest : List (Option String)) :
    publishLoop ev tid mr (some d :: b :: rest) =
      ⟨(publishLoop ev tid mr (b :: rest)).result,
       (publishLoop ev tid mr (b :: rest)).dlqCall,
       ev :: (publishLoop ev tid mr (b :: rest)).attempts⟩ := rfl

/-- When every attempt before the last fails and the last attempt fails
with detail `e`, the publish loop dead-letters the envelope with the
exhaustion reason, raises `MQTTError`, and has handed the same envelope
to the broker once per attempt. -/
theorem publishLoop_all_fail (ev : Envelope) (tid : String) (mr : ℕ) :
    ∀ (l : List (Option String)), (∀ x ∈ l, x ≠ none) → ∀ (e : String),
      publishLoop ev tid mr (l ++ [some e]) =
        ⟨.raised ("Failed to publish event after " ++ toString mr
            ++ " attempts") e,
         some (ev, "Publish failed after " ++ toString mr
            ++ " attempts: " ++ e),
         List.replicate (l.length + 1) ev⟩ := by
  intro l
  induction l with
  | nil => intro _ e; simp [publishLoop]
  | cons x l ih =>
      intro h e
      obtain ⟨d, rfl⟩ : ∃ d, x = some d := by
        cases x with
        | none => exact absurd rfl (h none (List.mem_cons_self _ _))
        | some d => exact ⟨d, rfl⟩
      have hl := ih (fun y hy => h y (List.mem_cons_of_mem _ hy)) e
      rw [List.cons_append]
      cases hq : l ++ [some e] with
      | nil => simp at hq
      | cons b rest =>
          rw [publishLoop_cons_cons, ← hq, hl]
          simp [List.replicate_succ]

/-- If the publish loop returns a trace id, it returns the call's own
trace id, and (unless no attempt was scheduled at all) some attempt's
broker publish actually succeeded. -/
theorem publishLoop_ok_imp (ev : Envelope) (tid : String) (mr : ℕ) :
    ∀ (l : List (Option String)) (tid' : String),
      (publishLoop ev tid mr l).result = PubResult.ok tid' →
      tid' = tid ∧ (l = [] ∨ ∃ x ∈ l, x = none) := by
  intro l
  induction l with
  | nil =>
      intro tid' h
      simp [publishLoop] at h
      exact ⟨h.symm, Or.inl rfl⟩
  | cons x l ih =>
      intro tid' h
      cases x with
      | none =>
          simp [publishLoop] at h
          exact ⟨h.symm, Or.inr ⟨none, List.mem_cons_self _ _, rfl⟩⟩
      | some d =>
          cases l with
          | nil => simp [publishLoop] at h
          | cons b rest =>
              rw [publishLoop_cons_cons] at h
              obtain ⟨h1, h2⟩ := ih tid' h
              refine ⟨h1, Or.inr ?_⟩
              rcases h2 with h2 | ⟨y, hy, hyn⟩
              · exact absurd h2 (by simp)
              · exact ⟨y, List.mem_cons_of_mem _ hy, hyn⟩

/-- Every envelope the publish loop hands to the broker is the one
envelope built before the loop. -/
theorem publishLoop_attempts_eq (ev : Envelope) (tid : String) (mr : ℕ) :
    ∀ (l : List (Option String)) (e : Envelope),
      e ∈ (publishLoop ev tid mr l).attempts → e = ev := by
  intro l
  induction l with
  | nil => intro e he; simp [publishLoop] at he
  | cons x l ih =>
      intro e he
      cases x with
      | none => simpa [publishLoop] using he
      | some d =>
          cases l with
          | nil => simpa [publishLoop] using he
          | cons b rest =>
              rw [publishLoop_cons_cons] at he
              rcases List.mem_cons.mp he with h | h
              · exact h
              · exact ih e h

/-! ## Claim theorems -/

/-- C1 (counterexample).  A failed message reaches the DLQ router with
a live client whose republish raises, while the table insert itself
would succeed (`insertRaises = none`); yet the insert is never
attempted: the single `except` handler logs and the row is lost.  This
refutes "a republish failure ... never prevents the table insert". -/
theorem dlq_insert_skipped_when_republish_fails :
    (send_to_dlq "tracker/events/proj/created" "validation failed"
        (PayloadVal.dict ["trace_id"])
        ⟨true, some "publish timeout", none⟩).insertAttempted = false ∧
    (send_to_dlq "tracker/events/proj/created" "validation failed"
        (PayloadVal.dict ["trace_id"])
        ⟨true, some "publish timeout", none⟩).errorLogged =
      some "Failed to send to DLQ: publish timeout" ∧
    (send_to_dlq "tracker/events/proj/created" "validation failed"
        (PayloadVal.dict ["trace_id"])
        ⟨true, some "publish timeout", none⟩).raised = none :=
  ⟨rfl, rfl, rfl⟩

/-- C1 (amended).  For every DLQ routing whose payload is not a
non-UTF-8 byte string, `_send_to_dlq` raises nothing — a republish
failure is swallowed (logged) — but the `dlq_events` insert is
attempted exactly when the republish step raised nothing (in
particular, always when no broker client is set): publish and insert
share one `try/except`, so a republish failure skips the insert. -/
theorem dlq_republish_failure_swallowed_but_blocks_insert
    (t r : String) (p : PayloadVal) (env : DlqEnv)
    (hp : p ≠ PayloadVal.bytesBad) :
    (send_to_dlq t r p env).raised = none ∧
    ((send_to_dlq t r p env).insertAttempted = true ↔
      (env.clientConnected = true → env.publishRaises = none)) := by
  obtain ⟨c, pr, ir⟩ := env
  refine ⟨send_to_dlq_raised_none t r p ⟨c, pr, ir⟩ hp, ?_⟩
  cases p <;> simp at hp <;> cases c <;> cases pr <;> cases ir <;>
    simp [send_to_dlq]

/-- Witness for `dlq_republish_failure_swallowed_but_blocks_insert` at
a concrete input with a connected client and a raising republish. -/
theorem dlq_republish_failure_swallowed_but_blocks_insert_witness :
    (send_to_dlq "t" "r" (PayloadVal.dict []) ⟨true, some "boom", none⟩).raised
      = none ∧
    ((send_to_dlq "t" "r" (PayloadVal.dict [])
        ⟨true, some "boom", none⟩).insertAttempted = true ↔
      ((true : Bool) = true → (some "boom" : Option String) = none)) :=
  dlq_republish_failure_swallowed_but_blocks_insert "t" "r" (PayloadVal.dict [])
    ⟨true, some "boom", none⟩ (by decide)

/-- C2 (code bug).  `deadLetter` is specified never to raise, but when
the failed payload is a byte string that is not valid UTF-8, the
`dlq_payload` construction calls `payload.decode()` *outside* the
`try` block and the resulting `UnicodeDecodeError` escapes to the
caller; no DLQ row is written. -/
theorem dlq_raises_on_non_utf8_payload :
    (send_to_dlq "tracker/events/proj/created"
        ("Processing error: " ++ unicodeDecodeErrorMsg) PayloadVal.bytesBad
        ⟨true, none, none⟩).raised = some unicodeDecodeErrorMsg ∧
    (send_to_dlq "tracker/events/proj/created"
        ("Processing error: " ++ unicodeDecodeErrorMsg) PayloadVal.bytesBad
        ⟨true, none, none⟩).inserted = false :=
  ⟨rfl, rfl⟩

/-- C3 (counterexample).  With `max_retries = 5`, after 5 consecutive
connection failures the loop does NOT terminate: the guard is
`retry_count <= max_retries`, so a 6th connection attempt is made (here
it succeeds, and no fatal condition is ever reported) — refuting
"after max_retries consecutive failures, no further connection attempt
occurs". -/
theorem loop_attempts_again_after_max_retries_failures :
    (runLoop 5 1 60 (List.replicate 5 (SessionOutcome.exn false)
        ++ [SessionOutcome.ret])).attempts = 6 ∧
    (runLoop 5 1 60 (List.replicate 5 (SessionOutcome.exn false)
        ++ [SessionOutcome.ret])).fatal = false :=
  ⟨rfl, rfl⟩

/-- C3 (amended).  On a run of `n` consecutive failures the loop makes
`min n (max_retries + 1)` attempts — it retries after every failure
count `k ≤ max_retries` (sleeping `min n max_retries` backoff delays)
and, once the count *exceeds* `max_retries` (i.e. after
`max_retries + 1` consecutive failures), reports the fatal condition
and stops: never more than `max_retries` consecutive retry attempts. -/
theorem loop_retries_iff_within_budget (mr : ℕ) (b md : ℚ) (n : ℕ) :
    (runLoop mr b md (List.replicate n (SessionOutcome.exn false))).attempts
      = min n (mr + 1) ∧
    (runLoop mr b md (List.replicate n (SessionOutcome.exn false))).fatal
      = decide (mr + 1 ≤ n) ∧
    (runLoop mr b md (List.replicate n (SessionOutcome.exn false))).delays.length
      = min n mr := by
  by_cases h : n ≤ mr
  · rw [runLoop, runLoopAux_replicate_of_le mr b md n 0 (by omega)]
    refine ⟨?_, ?_, ?_⟩
    · show n = min n (mr + 1)
      omega
    · show false = decide (mr + 1 ≤ n)
      have hnot : ¬ (mr + 1 ≤ n) := by omega
      simp [hnot]
    · show ((List.range n).map (fun i => backoffDelay b md (0 + 1 + i))).length
        = min n mr
      simp only [List.length_map, List.length_range]
      omega
  · rw [runLoop, runLoopAux_replicate_of_gt mr b md n 0 (by omega) (by omega)]
    refine ⟨?_, ?_, ?_⟩
    · show mr - 0 + 1 = min n (mr + 1)
      omega
    · show true = decide (mr + 1 ≤ n)
      have hyes : mr + 1 ≤ n := by omega
      simp [hyes]
    · show ((List.range (mr - 0)).map (fun i => backoffDelay b md (0 + 1 + i))).length
        = min n mr
      simp only [List.length_map, List.length_range]
      omega

/-- C4 (code bug).  `retry_count = 0` runs only when
`_connect_and_process()` *returns*; a session that connects and
subscribes successfully but later ends in an exception never executes
the reset.  On the outcome sequence fail, fail, (successful
connect whose session later dies), fail — third element
`exn true` — the observed delays are `[1, 2, 4, 8]`: the delay after
the successful connection is 8 s (attempt 4 of one unbroken backoff
schedule), not `base_delay`; indeed the loop's behaviour is identical
to four plain connection failures, since it cannot observe the
`connected` flag at all. -/
theorem successful_connect_session_crash_keeps_counter :
    (runLoop 5 1 60 [SessionOutcome.exn false, SessionOutcome.exn false,
        SessionOutcome.exn true, SessionOutcome.exn false]).delays
      = [1, 2, 4, 8] ∧
    runLoop 5 1 60 [SessionOutcome.exn false, SessionOutcome.exn false,
        SessionOutcome.exn true, SessionOutcome.exn false]
      = runLoop 5 1 60 (List.replicate 4 (SessionOutcome.exn false)) :=
  ⟨by norm_num [runLoop, runLoopAux, backoffDelay, min_def], rfl⟩

/-- C5 (code bug).  A non-UTF-8 inbound payload does not produce a
`"JSON decode error:"` validation failure: `decode()` raises
`UnicodeDecodeError`, which is not a `json.JSONDecodeError`, so it
reaches the outer handler (reason `"Processing error: ..."`), and the
DLQ call then re-raises on the same bytes — the exception escapes
`_process_message` and kills the consume session.  For contrast, a
valid-UTF-8 but syntactically invalid payload is handled as claimed:
reason `"JSON decode error: ..."` and no escape. -/
theorem non_utf8_message_escapes_consume_loop :
    process_message "tracker/events/proj/created" InMsg.badUtf8
        ⟨true, none, none⟩ none = ProcOutcome.escaped unicodeDecodeErrorMsg ∧
    process_message "tracker/events/proj/created"
        (InMsg.badJson "not json" "Expecting value") ⟨true, none, none⟩ none =
      ProcOutcome.dlq ("JSON decode error: Expecting value")
        (send_to_dlq "tracker/events/proj/created"
          "JSON decode error: Expecting value"
          (PayloadVal.bytesUtf8 "not json") ⟨true, none, none⟩) :=
  ⟨rfl, rfl⟩

/-- C6 (confirmed).  When every one of the `max_retries` broker publish
attempts of a `publish_event` call fails (and at least one attempt is
scheduled), the constructed envelope is routed through the dead-letter
router with reason `"Publish failed after <max_retries> attempts:
<detail>"` (`detail` the last attempt's error) and the call raises
`MQTTError`; and whenever the call returns a trace id instead, it is
the call's own trace id and some attempt's publish actually handed the
message to the broker — the call never returns silently after total
failure. -/
theorem publish_exhaustion_dead_letters_then_raises
    (kind : String) (pk : List String) (ta : Option String) (fu nowTs : String)
    (ms : ℕ) (sfx : String) (mr : ℕ) (outcome : ℕ → Option String)
    (hmr : 0 < mr) :
    ((∀ a, a < mr → outcome a ≠ none) →
      ∃ detail, outcome (mr - 1) = some detail ∧
        publish_event kind pk ta fu nowTs ms sfx mr outcome =
          ⟨PubResult.raised ("Failed to publish event after " ++ toString mr
              ++ " attempts") detail,
           some (⟨ta.getD fu, nowTs, kind, mkIdempotencyKey kind ms sfx, pk⟩,
             "Publish failed after " ++ toString mr ++ " attempts: " ++ detail),
           List.replicate mr
             ⟨ta.getD fu, nowTs, kind, mkIdempotencyKey kind ms sfx, pk⟩⟩) ∧
    (∀ tid, (publish_event kind pk ta fu nowTs ms sfx mr outcome).result
        = PubResult.ok tid →
      tid = ta.getD fu ∧ ∃ a, a < mr ∧ outcome a = none) := by
  constructor
  · intro hall
    obtain ⟨m, hm⟩ : ∃ m, mr = m + 1 := ⟨mr - 1, by omega⟩
    obtain ⟨detail, hd⟩ : ∃ d, outcome m = some d := by
      cases hx : outcome m with
      | none => exact absurd hx (hall m (by omega))
      | some d => exact ⟨d, rfl⟩
    refine ⟨detail, by rw [show mr - 1 = m by omega]; exact hd, ?_⟩
    have hr : (List.range mr).map outcome =
        ((List.range m).map outcome) ++ [some detail] := by
      rw [hm, List.range_succ, List.map_append, List.map_singleton, hd]
    have hfail : ∀ x ∈ (List.range m).map outcome, x ≠ none := by
      intro x hx
      obtain ⟨a, ha, rfl⟩ := List.mem_map.mp hx
      exact hall a (by simp only [List.mem_range] at ha; omega)
    show publishLoop ⟨ta.getD fu, nowTs, kind, mkIdempotencyKey kind ms sfx, pk⟩
        (ta.getD fu) mr ((List.range mr).map outcome) = _
    rw [hr, publishLoop_all_fail _ _ _ ((List.range m).map outcome) hfail detail]
    simp [hm]
  · intro tid h
    have h' : (publishLoop
        ⟨ta.getD fu, nowTs, kind, mkIdempotencyKey kind ms sfx, pk⟩
        (ta.getD fu) mr ((List.range mr).map outcome)).result
          = PubResult.ok tid := h
    obtain ⟨h1, h2⟩ := publishLoop_ok_imp _ _ _ _ tid h'
    refine ⟨h1, ?_⟩
    rcases h2 with h2 | ⟨x, hx, hxn⟩
    · exfalso
      have hlen := congrArg List.length h2
      simp only [List.length_map, List.length_range, List.length_nil] at hlen
      omega
    · subst hxn
      obtain ⟨a, ha, hao⟩ := List.mem_map.mp hx
      exact ⟨a, by simp only [List.mem_range] at ha; omega, hao⟩

/-- Witness for `publish_exhaustion_dead_letters_then_raises`: three
attempts, all failing with "down". -/
theorem publish_exhaustion_dead_letters_then_raises_witness :
    ((∀ a, a < 3 → (fun _ : ℕ => (some "down" : Option String)) a ≠ none) →
      ∃ detail, (fun _ : ℕ => (some "down" : Option String)) (3 - 1)
          = some detail ∧
        publish_event "deploy" [] none "u0" "T0" 7 "ab" 3
            (fun _ => some "down") =
          ⟨PubResult.raised ("Failed to publish event after " ++ toString 3
              ++ " attempts") detail,
           some (⟨(none : Option String).getD "u0", "T0", "deploy",
               mkIdempotencyKey "deploy" 7 "ab", []⟩,
             "Publish failed after " ++ toString 3 ++ " attempts: " ++ detail),
           List.replicate 3
             ⟨(none : Option String).getD "u0", "T0", "deploy",
               mkIdempotencyKey "deploy" 7 "ab", []⟩⟩) ∧
    (∀ tid, (publish_event "deploy" [] none "u0" "T0" 7 "ab" 3
        (fun _ => some "down")).result = PubResult.ok tid →
      tid = (none : Option String).getD "u0" ∧
        ∃ a, a < 3 ∧ (fun _ : ℕ => (some "down" : Option String)) a = none) :=
  publish_exhaustion_dead_letters_then_raises "deploy" [] none "u0" "T0" 7 "ab"
    3 (fun _ => some "down") (by decide)

/-- C7 (confirmed).  A JSON object missing a non-empty subset of the
four mandatory fields is dead-lettered (not mirrored) with reason
`"Missing fields: [<names>]"`, where the bracketed list is exactly the
missing required fields: a field appears in it iff it is required and
absent from the object. -/
theorem missing_fields_reason_names_exactly_missing
    (topic s : String) (keys : List String) (env : DlqEnv) (mf : Option String)
    (h : requiredFields.filter (fun f => ! keys.contains f) ≠ []) :
    process_message topic (InMsg.jsonObj s keys) env mf =
      ProcOutcome.dlq
        ("Missing fields: " ++
          pyListRepr (requiredFields.filter (fun f => ! keys.contains f)))
        (send_to_dlq topic
          ("Missing fields: " ++
            pyListRepr (requiredFields.filter (fun f => ! keys.contains f)))
          (PayloadVal.dict keys) env) ∧
    ∀ f, f ∈ requiredFields.filter (fun f => ! keys.contains f) ↔
      (f ∈ requiredFields ∧ ¬ f ∈ keys) := by
  constructor
  · have hne : (requiredFields.filter (fun f => ! keys.contains f)).isEmpty
        = false := by
      cases hq : requiredFields.filter (fun f => ! keys.contains f) with
      | nil => exact absurd hq h
      | cons a l => rw [hq] at *; rfl
    have hstep : process_message topic (InMsg.jsonObj s keys) env mf =
        (if (requiredFields.filter (fun f => ! keys.contains f)).isEmpty then
          (match mf with
           | none => ProcOutcome.mirrored topic keys
           | some e => dlqOutcome topic ("Processing error: " ++ e)
               (PayloadVal.bytesUtf8 s) env)
         else
          dlqOutcome topic
            ("Missing fields: " ++
              pyListRepr (requiredFields.filter (fun f => ! keys.contains f)))
            (PayloadVal.dict keys) env) := rfl
    rw [hstep, hne]
    rw [if_neg (by simp)]
    exact dlqOutcome_eq_dlq topic _ (PayloadVal.dict keys) env
      (fun hh => PayloadVal.noConfusion hh)
  · intro f
    simp [List.mem_filter]

/-- Witness for `missing_fields_reason_names_exactly_missing`: an
object with only `trace_id` and `kind` present. -/
theorem missing_fields_reason_names_exactly_missing_witness :
    process_message "t" (InMsg.jsonObj "raw" ["trace_id", "kind"])
        ⟨true, none, none⟩ none =
      ProcOutcome.dlq
        ("Missing fields: " ++
          pyListRepr (requiredFields.filter
            (fun f => ! (["trace_id", "kind"] : List String).contains f)))
        (send_to_dlq "t"
          ("Missing fields: " ++
            pyListRepr (requiredFields.filter
              (fun f => ! (["trace_id", "kind"] : List String).contains f)))
          (PayloadVal.dict ["trace_id", "kind"]) ⟨true, none, none⟩) ∧
    ∀ f, f ∈ requiredFields.filter
        (fun f => ! (["trace_id", "kind"] : List String).contains f) ↔
      (f ∈ requiredFields ∧ ¬ f ∈ (["trace_id", "kind"] : List String)) :=
  missing_fields_reason_names_exactly_missing "t" "raw" ["trace_id", "kind"]
    ⟨true, none, none⟩ none (by decide)

/-- C8 (confirmed).  In a run of `n ≤ max_retries` consecutive
failures, the delay before reconnect attempt `k` (1-based, `k ≤ n`)
equals `min(base_delay * 2 ^ (k - 1), max_delay)`; with the defaults
`base_delay = 1`, `max_delay = 60`, a broker unreachable for the first
3 attempts yields exactly the delays `[1, 2, 4]`. -/
theorem reconnect_backoff_delay_schedule (b md : ℚ) (n k : ℕ)
    (hk : 1 ≤ k) (hkn : k ≤ n) (hn : n ≤ 5) :
    ((runLoop 5 b md (List.replicate n (SessionOutcome.exn false))).delays).get?
        (k - 1) = some (min (b * 2 ^ (k - 1)) md) ∧
    (runLoop 5 (1 : ℚ) 60 (List.replicate 3 (SessionOutcome.exn false))).delays
      = [(1 : ℚ), 2, 4] := by
  constructor
  · rw [runLoop, runLoopAux_replicate_of_le 5 b md n 0 (by omega)]
    show ((List.range n).map (fun i => backoffDelay b md (0 + 1 + i))).get?
        (k - 1) = _
    rw [List.get?_map, List.get?_range (show k - 1 < n by omega)]
    show some (backoffDelay b md (0 + 1 + (k - 1))) = _
    rw [show 0 + 1 + (k - 1) = k by omega]
    rfl
  · norm_num [runLoop, runLoopAux, backoffDelay, min_def, List.replicate]

/-- Witness for `reconnect_backoff_delay_schedule`: the delay before
attempt 2 of a 3-failure run is 2 s. -/
theorem reconnect_backoff_delay_schedule_witness :
    ((runLoop 5 1 60 (List.replicate 3 (SessionOutcome.exn false))).delays).get?
        (2 - 1) = some (min ((1 : ℚ) * 2 ^ (2 - 1)) 60) ∧
    (runLoop 5 (1 : ℚ) 60 (List.replicate 3 (SessionOutcome.exn false))).delays
      = [(1 : ℚ), 2, 4] :=
  reconnect_backoff_delay_schedule 1 60 3 2 (by decide) (by decide) (by decide)

/-- C9 (counterexample).  A call of `publish_event` whose first broker
publish fails and whose retry succeeds hands the broker two envelopes
carrying the SAME `idempotency_key` (the key is built once, before the
retry loop) — refuting "retry attempts of the same call publish
envelopes with distinct idempotency_key values". -/
theorem idempotency_key_repeated_across_retries :
    (publish_event "project.created" [] none "u1" "T0" 1234 "abcd1234" 2
        (fun a => if a == 0 then some "timeout" else none)).attempts.map
          Envelope.idempotency_key =
      ["project.created_1234_abcd1234", "project.created_1234_abcd1234"] :=
  rfl

/-- C9 (amended).  The `idempotency_key` is unique to the *call*, not
to the attempt: it is derived once, at call entry, from the kind, the
millisecond clock and a random suffix, and every envelope handed to
the broker by that call's retry loop is the identical envelope bearing
that same key. -/
theorem envelope_constant_across_attempts
    (kind : String) (pk : List String) (ta : Option String) (fu nowTs : String)
    (ms : ℕ) (sfx : String) (mr : ℕ) (outcome : ℕ → Option String) :
    ∀ e ∈ (publish_event kind pk ta fu nowTs ms sfx mr outcome).attempts,
      e.idempotency_key = mkIdempotencyKey kind ms sfx ∧
      e = ⟨ta.getD fu, nowTs, kind, mkIdempotencyKey kind ms sfx, pk⟩ := by
  intro e he
  have he' : e ∈ (publishLoop
      ⟨ta.getD fu, nowTs, kind, mkIdempotencyKey kind ms sfx, pk⟩
      (ta.getD fu) mr ((List.range mr).map outcome)).attempts := he
  have := publishLoop_attempts_eq _ _ _ _ e he'
  subst this
  exact ⟨rfl, rfl⟩

/-- Witness for `envelope_constant_across_attempts` at a one-attempt
call that succeeds immediately. -/
theorem envelope_constant_across_attempts_witness :
    (⟨"u1", "T0", "k", mkIdempotencyKey "k" 5 "s", []⟩ :
        Envelope).idempotency_key = mkIdempotencyKey "k" 5 "s" ∧
    (⟨"u1", "T0", "k", mkIdempotencyKey "k" 5 "s", []⟩ : Envelope) =
      ⟨(none : Option String).getD "u1", "T0", "k",
        mkIdempotencyKey "k" 5 "s", []⟩ :=
  envelope_constant_across_attempts "k" [] none "u1" "T0" 5 "s" 1 (fun _ => none)
    ⟨"u1", "T0", "k", mkIdempotencyKey "k" 5 "s", []⟩ (by decide)

/-- C10 (counterexample).  An inbound JSON object carrying `trace_id`,
`ts`, `kind` and `idempotency_key` but NO `payload` key passes
validation and IS mirrored into `events_mirror` — refuting "it is not
mirrored as a valid envelope". -/
theorem message_without_payload_key_is_mirrored :
    process_message "tracker/events/proj/created"
        (InMsg.jsonObj "raw" ["trace_id", "ts", "kind", "idempotency_key"])
        ⟨true, none, none⟩ none =
      ProcOutcome.mirrored "tracker/events/proj/created"
        ["trace_id", "ts", "kind", "idempotency_key"] :=
  rfl

/-- C10 (amended).  Inbound validation enforces only
`{trace_id, ts, kind, idempotency_key}`: any JSON object containing
those four keys is mirrored (when the mirror insert succeeds), whether
or not it has a `payload` key. -/
theorem four_required_fields_suffice_for_mirror
    (topic s : String) (keys : List String) (env : DlqEnv)
    (h : ∀ f ∈ requiredFields, keys.contains f = true) :
    process_message topic (InMsg.jsonObj s keys) env none =
      ProcOutcome.mirrored topic keys := by
  have hempty : requiredFields.filter (fun f => ! keys.contains f) = [] := by
    rw [List.filter_eq_nil]
    intro a ha
    simpa using h a ha
  have hstep : process_message topic (InMsg.jsonObj s keys) env none =
      (if (requiredFields.filter (fun f => ! keys.contains f)).isEmpty then
        ProcOutcome.mirrored topic keys
       else
        dlqOutcome topic
          ("Missing fields: " ++
            pyListRepr (requiredFields.filter (fun f => ! keys.contains f)))
          (PayloadVal.dict keys) env) := rfl
  rw [hstep, hempty]
  rfl

/-- Witness for `four_required_fields_suffice_for_mirror`: exactly the
four required keys, no `payload`. -/
theorem four_required_fields_suffice_for_mirror_witness :
    process_message "t"
        (InMsg.jsonObj "raw" ["trace_id", "ts", "kind", "idempotency_key"])
        ⟨false, none, none⟩ none =
      ProcOutcome.mirrored "t" ["trace_id", "ts", "kind", "idempotency_key"] :=
  four_required_fields_suffice_for_mirror "t" "raw"
    ["trace_id", "ts", "kind", "idempotency_key"] ⟨false, none, none⟩
    (by decide)

end TaylorDash
